import Mathlib

/-!
Shallow embedding of the tiger editor's document/application state machine
(`src/state.rs`, `src/command.rs`).

Modelling decisions:
- `PathBuf` is modelled as a `Path` structure holding a stem and an optional
  extension; the only path operation the core performs besides equality and
  cloning is `set_extension`, which replaces the extension component.
- External file dialogs are modelled by inlining the dialog's response into the
  command variant; the file system read performed by `Document::open` is an
  oracle `fs : Path → Option Sheet` passed to `process_command` (`none` models
  an IO/deserialization failure). Disk writes performed by `save` mutate no
  state field and are modelled as always succeeding.
- `f32` pan offsets and the derived zoom factor are modelled as `Rat`; every
  zoom level reachable by the code is a power of two in [-8, 16], for which
  the floating-point computations of the source are exact.
- Rust `i32` division truncates toward zero, which is `Int.div`.
- Each state operation returns the (possibly partially mutated) state together
  with an optional error, mirroring in-place mutation plus `Result`.
- The `Sheet` type lives in a module absent from the sources; it is modelled
  from the spec (see its doc comment).
-/

namespace Tiger

/-- A file system path: stem (including directories) plus optional extension.
Rust's `PathBuf::set_extension` replaces the extension component. -/
structure Path where
  stem : String
  ext : Option String
deriving DecidableEq

def Path.set_extension (p : Path) (e : String) : Path :=
  { p with ext := some e }

/-- The error taxonomy of `state.rs` (`StateError`), plus `IoError` standing
for wrapped external IO/deserialization failures propagated through
`failure::Error`. -/
inductive StateError where
  | NoDocumentOpen
  | DocumentNotFound
  | FrameNotInDocument
  | AnimationNotInDocument
  | AnimationAlreadyExists
  | IoError
deriving DecidableEq

inductive ContentSelection where
  | Frame (p : Path)
deriving DecidableEq

inductive ContentTab where
  | Frames
  | Animations
deriving DecidableEq

inductive WorkbenchItem where
  | Frame (p : Path)
deriving DecidableEq

/-- Modelled from the spec: the `Sheet` module is not among the provided
sources. Per the spec (§2, §3, glossary) a Sheet owns frames identified by
path and animations identified by name, names unique within one Sheet, and
exposes lookup-by-identity and mutation primitives
(has-frame/add-frame/has-animation/get-animation/add-animation/rename). -/
structure Sheet where
  frames : List Path
  animations : List String
deriving DecidableEq

def Sheet.new : Sheet := { frames := [], animations := [] }

/-- Modelled from the spec: frame lookup by path identity. -/
def Sheet.has_frame (sh : Sheet) (p : Path) : Bool :=
  sh.frames.any (fun f => decide (f = p))

/-- Modelled from the spec: adds a frame identified by its path; paths act as
unique identities within the sheet. -/
def Sheet.add_frame (sh : Sheet) (p : Path) : Sheet :=
  if sh.has_frame p then sh else { sh with frames := sh.frames ++ [p] }

/-- Modelled from the spec: animation lookup by name. -/
def Sheet.has_animation (sh : Sheet) (n : String) : Bool :=
  sh.animations.any (fun a => decide (a = n))

/-- Modelled from the spec: fetch an animation by name (we only track names). -/
def Sheet.get_animation (sh : Sheet) (n : String) : Option String :=
  if sh.has_animation n then some n else none

/-- Modelled from the spec: a name not already used by an animation, picked
among `length + 1` numbered candidates (pigeonhole guarantees a fresh one). -/
def freshAnimationName (existing : List String) : String :=
  match (List.range (existing.length + 1)).find?
      (fun k => !(existing.any (fun a => decide (a = "New Animation " ++ toString k)))) with
  | some k => "New Animation " ++ toString k
  | none => "New Animation"

/-- Modelled from the spec: `CreateAnimation` "adds a new animation with a
generated unique name"; returns the generated name and the updated sheet. -/
def Sheet.add_animation (sh : Sheet) : String × Sheet :=
  let n := freshAnimationName sh.animations
  (n, { sh with animations := sh.animations ++ [n] })

/-- Modelled from the spec: renames an animation; name uniqueness is enforced
at rename time, and a failure leaves the sheet untouched. -/
def Sheet.rename_animation (sh : Sheet) (old_name new_name : String) :
    Except StateError Sheet :=
  if ¬ sh.has_animation old_name then .error .AnimationNotInDocument
  else if sh.has_animation new_name then .error .AnimationAlreadyExists
  else .ok { sh with animations :=
    sh.animations.map (fun a => if a = old_name then new_name else a) }

structure Document where
  source : Path
  sheet : Sheet
  content_selection : Option ContentSelection
  content_current_tab : ContentTab
  content_rename_animation_target : Option String
  content_rename_animation_buffer : Option String
  workbench_item : Option WorkbenchItem
  workbench_offset : Rat × Rat
  workbench_zoom_level : Int
deriving DecidableEq

def Document.new (path : Path) : Document :=
  { source := path
    sheet := Sheet.new
    content_selection := none
    content_current_tab := ContentTab.Frames
    content_rename_animation_target := none
    content_rename_animation_buffer := none
    workbench_item := none
    workbench_offset := (0, 0)
    workbench_zoom_level := 1 }

structure State where
  documents : List Document
  current_document : Option Path
deriving DecidableEq

def State.new : State := { documents := [], current_document := none }

def State.is_document_open (s : State) (p : Path) : Bool :=
  s.documents.any (fun d => decide (d.source = p))

def State.get_current_document (s : State) : Option Document :=
  match s.current_document with
  | some p => s.documents.find? (fun d => decide (d.source = p))
  | none => none

/-- Writing through the `&mut Document` returned by `get_current_document_mut`:
the reference points at the first document whose source equals the current
path, so mutation replaces that element. -/
def replaceFirst (p : Path) (d : Document) : List Document → List Document
  | [] => []
  | x :: xs => if x.source = p then d :: xs else x :: replaceFirst p d xs

def State.update_current_document (s : State) (d : Document) : State :=
  match s.current_document with
  | some p => { s with documents := replaceFirst p d s.documents }
  | none => s

/-- Response of a native file dialog (`nfd`). -/
inductive DialogResponse where
  | okay (p : Path)
  | okayMultiple (ps : List Path)
  | cancel
deriving DecidableEq

def State.new_document (s : State) (resp : DialogResponse) :
    State × Option StateError :=
  match resp with
  | .okay path0 =>
    let path := path0.set_extension "tiger"
    let s1 :=
      if s.is_document_open path then
        { s with documents := replaceFirst path (Document.new path) s.documents }
      else
        { s with documents := s.documents ++ [Document.new path] }
    ({ s1 with current_document := some path }, none)
  | _ => (s, none)

/-- One iteration of `open_document`: skip if already open, otherwise
deserialize from disk (`fs`) and register; the path becomes current. -/
def State.open_one (s : State) (fs : Path → Option Sheet) (path : Path) :
    State × Option StateError :=
  if s.is_document_open path then
    ({ s with current_document := some path }, none)
  else
    match fs path with
    | none => (s, some .IoError)
    | some sheet =>
      ({ s with
          documents := s.documents ++ [{ Document.new path with sheet := sheet }]
          current_document := some path }, none)

def State.open_document_list (s : State) (fs : Path → Option Sheet) :
    List Path → State × Option StateError
  | [] => (s, none)
  | p :: ps =>
    match State.open_one s fs p with
    | (s1, none) => State.open_document_list s1 fs ps
    | (s1, some e) => (s1, some e)

def State.open_document (s : State) (fs : Path → Option Sheet)
    (resp : DialogResponse) : State × Option StateError :=
  match resp with
  | .okay p => State.open_document_list s fs [p]
  | .okayMultiple ps => State.open_document_list s fs ps
  | .cancel => (s, none)

def State.close_current_document (s : State) : State × Option StateError :=
  match s.get_current_document with
  | none => (s, some .NoDocumentOpen)
  | some document =>
    match s.documents.findIdx? (fun d => decide (d.source = document.source)) with
    | none => (s, some .DocumentNotFound)
    | some index =>
      let documents1 := s.documents.eraseIdx index
      let current1 :=
        if documents1.isEmpty then none
        else (documents1[min index (documents1.length - 1)]?).map Document.source
      ({ s with documents := documents1, current_document := current1 }, none)

def State.close_all_documents (s : State) : State :=
  { s with documents := [], current_document := none }

/-- `Document::save` serializes the sheet to disk and mutates no state field;
disk writes are modelled as succeeding. -/
def State.save_current_document (s : State) : State × Option StateError :=
  match s.get_current_document with
  | none => (s, some .NoDocumentOpen)
  | some _ => (s, none)

def State.save_current_document_as (s : State) (resp : DialogResponse) :
    State × Option StateError :=
  match s.get_current_document with
  | none => (s, some .NoDocumentOpen)
  | some document =>
    match resp with
    | .okay path0 =>
      let newSource := (path0 : Path).set_extension "tiger"
      let s1 := s.update_current_document { document with source := newSource }
      ({ s1 with current_document := some newSource }, none)
    | _ => (s, none)

def State.save_all_documents (s : State) : State × Option StateError :=
  (s, none)

def State.switch_to_content_tab (s : State) (tab : ContentTab) :
    State × Option StateError :=
  match s.get_current_document with
  | none => (s, some .NoDocumentOpen)
  | some document =>
    (s.update_current_document { document with content_current_tab := tab }, none)

def State.import (s : State) (resp : DialogResponse) :
    State × Option StateError :=
  match s.get_current_document with
  | none => (s, some .NoDocumentOpen)
  | some document =>
    match resp with
    | .okay p =>
      (s.update_current_document
        { document with sheet := document.sheet.add_frame p }, none)
    | .okayMultiple ps =>
      (s.update_current_document
        { document with sheet := ps.foldl Sheet.add_frame document.sheet }, none)
    | .cancel => (s, none)

def State.select_frame (s : State) (path : Path) : State × Option StateError :=
  match s.get_current_document with
  | none => (s, some .NoDocumentOpen)
  | some document =>
    if ¬ document.sheet.has_frame path then
      (s, some .FrameNotInDocument)
    else
      (s.update_current_document
        { document with content_selection := some (ContentSelection.Frame path) },
       none)

def State.edit_frame (s : State) (path : Path) : State × Option StateError :=
  match s.get_current_document with
  | none => (s, some .NoDocumentOpen)
  | some document =>
    if ¬ document.sheet.has_frame path then
      (s, some .FrameNotInDocument)
    else
      (s.update_current_document
        { document with
            workbench_item := some (WorkbenchItem.Frame path)
            workbench_offset := (0, 0) }, none)

def State.begin_animation_rename (s : State) (old_name : String) :
    State × Option StateError :=
  match s.get_current_document with
  | none => (s, some .NoDocumentOpen)
  | some document =>
    match document.sheet.get_animation old_name with
    | none => (s, some .AnimationNotInDocument)
    | some _ =>
      (s.update_current_document
        { document with
            content_rename_animation_target := some old_name
            content_rename_animation_buffer := some old_name }, none)

def State.create_animation (s : State) : State × Option StateError :=
  match s.get_current_document with
  | none => (s, some .NoDocumentOpen)
  | some document =>
    let r := document.sheet.add_animation
    let s1 := s.update_current_document { document with sheet := r.2 }
    s1.begin_animation_rename r.1

def State.update_animation_rename (s : State) (new_name : String) :
    State × Option StateError :=
  match s.get_current_document with
  | none => (s, some .NoDocumentOpen)
  | some document =>
    (s.update_current_document
      { document with content_rename_animation_buffer := some new_name }, none)

def State.end_animation_rename (s : State) : State × Option StateError :=
  match s.get_current_document with
  | none => (s, some .NoDocumentOpen)
  | some document =>
    match document.content_rename_animation_target,
          document.content_rename_animation_buffer with
    | some old_name, some new_name =>
      if old_name ≠ new_name then
        if document.sheet.has_animation new_name then
          (s, some .AnimationAlreadyExists)
        else
          match document.sheet.rename_animation old_name new_name with
          | .error e => (s, some e)
          | .ok sheet1 =>
            (s.update_current_document
              { document with
                  sheet := sheet1
                  content_rename_animation_target := none
                  content_rename_animation_buffer := none }, none)
      else
        (s.update_current_document
          { document with
              content_rename_animation_target := none
              content_rename_animation_buffer := none }, none)
    | _, _ => (s, none)

/-- The zoom-in level transition of `State::zoom_in`: double at ≥ 1, jump
−2 → 1, otherwise halve (truncating toward zero like Rust `i32`), then clamp
to at most 16. -/
def zoomInLevel (l : Int) : Int :=
  min (if l ≥ 1 then l * 2 else if l = -2 then 1 else Int.tdiv l 2) 16

/-- The zoom-out level transition of `State::zoom_out`: halve above 1
(truncating toward zero), jump 1 → −2, otherwise double, then clamp to at
least −8. -/
def zoomOutLevel (l : Int) : Int :=
  max (if l > 1 then Int.tdiv l 2 else if l = 1 then -2 else l * 2) (-8)

def State.zoom_in (s : State) : State × Option StateError :=
  match s.get_current_document with
  | none => (s, some .NoDocumentOpen)
  | some document =>
    (s.update_current_document
      { document with workbench_zoom_level := zoomInLevel document.workbench_zoom_level },
     none)

def State.zoom_out (s : State) : State × Option StateError :=
  match s.get_current_document with
  | none => (s, some .NoDocumentOpen)
  | some document =>
    (s.update_current_document
      { document with workbench_zoom_level := zoomOutLevel document.workbench_zoom_level },
     none)

def State.reset_zoom (s : State) : State × Option StateError :=
  match s.get_current_document with
  | none => (s, some .NoDocumentOpen)
  | some document =>
    (s.update_current_document { document with workbench_zoom_level := 1 }, none)

def State.pan (s : State) (delta : Rat × Rat) : State × Option StateError :=
  match s.get_current_document with
  | none => (s, some .NoDocumentOpen)
  | some document =>
    (s.update_current_document
      { document with workbench_offset :=
          (document.workbench_offset.1 + delta.1,
           document.workbench_offset.2 + delta.2) }, none)

def State.get_workbench_zoom_factor (s : State) : Except StateError Rat :=
  match s.get_current_document with
  | none => .error .NoDocumentOpen
  | some document =>
    .ok (if document.workbench_zoom_level ≥ 0 then
          (document.workbench_zoom_level : Rat)
        else
          1 / (document.workbench_zoom_level : Rat))

/-- The command vocabulary of `state.rs`'s `process_command` match. Dialog
responses are inlined into the variants that consult a native dialog, to model
the external environment. -/
inductive Command where
  | NewDocument (resp : DialogResponse)
  | OpenDocument (resp : DialogResponse)
  | FocusDocument (p : Path)
  | CloseCurrentDocument
  | CloseAllDocuments
  | SaveCurrentDocument
  | SaveCurrentDocumentAs (resp : DialogResponse)
  | SaveAllDocuments
  | SwitchToContentTab (tab : ContentTab)
  | Import (resp : DialogResponse)
  | SelectFrame (p : Path)
  | EditFrame (p : Path)
  | CreateAnimation
  | BeginAnimationRename (old_name : String)
  | UpdateAnimationRename (new_name : String)
  | EndAnimationRename
  | ZoomIn
  | ZoomOut
  | ResetZoom
  | Pan (delta : Rat × Rat)
deriving DecidableEq

/-- Decidable equality for `Except` results, used to evaluate claims. -/
instance {e a : Type} [DecidableEq e] [DecidableEq a] : DecidableEq (Except e a) := fun
  | .ok x, .ok y => if h : x = y then .isTrue (by rw [h]) else .isFalse (by simp [h])
  | .ok _, .error _ => .isFalse (by simp)
  | .error _, .ok _ => .isFalse (by simp)
  | .error x, .error y => if h : x = y then .isTrue (by rw [h]) else .isFalse (by simp [h])

def State.process_command (fs : Path → Option Sheet) (s : State) :
    Command → State × Option StateError
  | .NewDocument resp => s.new_document resp
  | .OpenDocument resp => s.open_document fs resp
  | .FocusDocument p =>
    if s.is_document_open p then ({ s with current_document := some p }, none)
    else (s, none)
  | .CloseCurrentDocument => s.close_current_document
  | .CloseAllDocuments => (s.close_all_documents, none)
  | .SaveCurrentDocument => s.save_current_document
  | .SaveCurrentDocumentAs resp => s.save_current_document_as resp
  | .SaveAllDocuments => s.save_all_documents
  | .SwitchToContentTab tab => s.switch_to_content_tab tab
  | .Import resp => s.import resp
  | .SelectFrame p => s.select_frame p
  | .EditFrame p => s.edit_frame p
  | .CreateAnimation => s.create_animation
  | .BeginAnimationRename old_name => s.begin_animation_rename old_name
  | .UpdateAnimationRename new_name => s.update_animation_rename new_name
  | .EndAnimationRename => s.end_animation_rename
  | .ZoomIn => s.zoom_in
  | .ZoomOut => s.zoom_out
  | .ResetZoom => s.reset_zoom
  | .Pan delta => s.pan delta

/-- Sequential application of a flushed command queue: each command is applied
independently, a failure never rolls back earlier commands (§4.2). -/
def State.run (fs : Path → Option Sheet) (s : State) : List Command → State
  | [] => s
  | c :: cs => State.run fs (State.process_command fs s c).1 cs

/-- A file-system oracle with no readable sheets (no claim below reads disk). -/
def fs0 : Path → Option Sheet := fun _ => none

/-- The zoom lattice documented in §4.3/§8 of the spec. -/
def zoomLattice : List Int := [-8, -4, -2, 1, 2, 4, 8, 16]

/-- Claim-side predicate: no two open documents share a source (spec §3). -/
def sourcesUnique (s : State) : Prop := (s.documents.map Document.source).Nodup

/-- Claim-side predicate: the rename target/buffer pair is both-Some-or-both-None
(spec §3). -/
def renamePairConsistent (d : Document) : Prop :=
  d.content_rename_animation_target.isSome = d.content_rename_animation_buffer.isSome

/-- Invariant that actually holds on the code: a rename target is only ever set
together with a buffer (the converse can fail, see claim C2). -/
def RenameInv (d : Document) : Prop :=
  d.content_rename_animation_target.isSome = true →
  d.content_rename_animation_buffer.isSome = true

def StateInv (s : State) : Prop := ∀ d ∈ s.documents, RenameInv d

instance (s : State) : Decidable (sourcesUnique s) := by
  unfold sourcesUnique; infer_instance

instance (d : Document) : Decidable (renamePairConsistent d) := by
  unfold renamePairConsistent; infer_instance

instance (d : Document) : Decidable (RenameInv d) := by
  unfold RenameInv; infer_instance

/- Concrete inputs used by counterexamples and witnesses. -/

def pa : Path := ⟨"a", none⟩
def pb : Path := ⟨"b", none⟩
def patiger : Path := ⟨"a", some "tiger"⟩
def pbtiger : Path := ⟨"b", some "tiger"⟩
def pframe : Path := ⟨"f", some "png"⟩

def d0 : Document := Document.new patiger

def sOne : State := { documents := [d0], current_document := some patiger }

def sTwo : State :=
  { documents := [d0, Document.new pbtiger], current_document := some patiger }

def sheetAB : Sheet := { frames := [], animations := ["a", "b"] }

def dAB : Document :=
  { d0 with
      sheet := sheetAB
      content_rename_animation_target := some "a"
      content_rename_animation_buffer := some "b" }

def sAB : State := { documents := [dAB], current_document := some patiger }

def sheetWolf : Sheet := { frames := [], animations := ["wolf"] }

def dWolf : Document := { d0 with sheet := sheetWolf }

def sWolf : State := { documents := [dWolf], current_document := some patiger }

/-- Command sequence exhibiting the `SaveCurrentDocumentAs` source collision. -/
def c1Cmds : List Command :=
  [Command.NewDocument (.okay pa),
   Command.NewDocument (.okay pb),
   Command.FocusDocument patiger,
   Command.SaveCurrentDocumentAs (.okay pb)]

/-- Command sequence exhibiting a half-open rename. -/
def c2Cmds : List Command :=
  [Command.NewDocument (.okay pa), Command.UpdateAnimationRename "x"]

/-- Command sequence reaching a document with a rename in progress. -/
def c2RunCmds : List Command :=
  [Command.NewDocument (.okay pa), Command.CreateAnimation]

/-- The document reached by `c2RunCmds`. -/
def dCreated : Document :=
  { d0 with
      sheet := { frames := [], animations := ["New Animation 0"] }
      content_rename_animation_target := some "New Animation 0"
      content_rename_animation_buffer := some "New Animation 0" }

/-- Command sequence reaching zoom step −2. -/
def c3Cmds : List Command := [Command.NewDocument (.okay pa), Command.ZoomOut]

/-- The document reached by `c3Cmds` (and by `ZoomOut` from `sOne`). -/
def dZoomedOut : Document := { d0 with workbench_zoom_level := -2 }

/- Helper lemmas about the state machinery. -/

lemma source_eq_of_get_current {s : State} {d : Document}
    (h : s.get_current_document = some d) : s.current_document = some d.source := by
  unfold State.get_current_document at h
  split at h
  · rename_i p hp
    have hdp := List.find?_some h
    simp only [decide_eq_true_eq] at hdp
    rw [hdp]
    exact hp
  · exact absurd h (by simp)

lemma mem_of_get_current {s : State} {d : Document}
    (h : s.get_current_document = some d) : d ∈ s.documents := by
  unfold State.get_current_document at h
  split at h
  · exact List.mem_of_find?_eq_some h
  · exact absurd h (by simp)

lemma find?_of_get_current {s : State} {d : Document}
    (h : s.get_current_document = some d) :
    s.documents.find? (fun x => decide (x.source = d.source)) = some d := by
  have hc := source_eq_of_get_current h
  unfold State.get_current_document at h
  rw [hc] at h
  exact h

lemma mem_replaceFirst {p : Path} {d x : Document} :
    ∀ {l : List Document}, x ∈ replaceFirst p d l → x = d ∨ x ∈ l
  | [], h => by simp [replaceFirst] at h
  | y :: ys, h => by
    unfold replaceFirst at h
    by_cases hy : y.source = p
    · rw [if_pos hy] at h
      rcases List.mem_cons.mp h with h1 | h1
      · exact Or.inl h1
      · exact Or.inr (List.mem_cons_of_mem _ h1)
    · rw [if_neg hy] at h
      rcases List.mem_cons.mp h with h1 | h1
      · exact Or.inr (h1 ▸ List.mem_cons_self _ _)
      · rcases mem_replaceFirst h1 with h2 | h2
        · exact Or.inl h2
        · exact Or.inr (List.mem_cons_of_mem _ h2)

lemma find?_replaceFirst {p : Path} {d' : Document} (hd : d'.source = p) :
    ∀ {l : List Document},
      (l.find? (fun x => decide (x.source = p))).isSome = true →
      (replaceFirst p d' l).find? (fun x => decide (x.source = p)) = some d'
  | [], h => by simp at h
  | y :: ys, h => by
    unfold replaceFirst
    by_cases hy : y.source = p
    · rw [if_pos hy]
      exact List.find?_cons_of_pos _ (by simpa using hd)
    · rw [if_neg hy]
      rw [List.find?_cons_of_neg _ (by simpa using hy)]
      rw [List.find?_cons_of_neg _ (by simpa using hy)] at h
      exact find?_replaceFirst hd h

lemma update_keeps_current (s : State) (d' : Document) :
    (s.update_current_document d').current_document = s.current_document := by
  unfold State.update_current_document
  split <;> simp_all

lemma update_docs_eq {s : State} {p : Path} (d' : Document)
    (hc : s.current_document = some p) :
    (s.update_current_document d').documents = replaceFirst p d' s.documents := by
  unfold State.update_current_document
  rw [hc]

lemma get_current_update {s : State} {d d' : Document}
    (h : s.get_current_document = some d) (hsrc : d'.source = d.source) :
    (s.update_current_document d').get_current_document = some d' := by
  have hc := source_eq_of_get_current h
  have hfind := find?_of_get_current h
  unfold State.get_current_document
  rw [update_keeps_current, hc]
  show (s.update_current_document d').documents.find?
    (fun x => decide (x.source = d.source)) = some d'
  rw [update_docs_eq d' hc]
  exact find?_replaceFirst hsrc (by rw [hfind]; rfl)

lemma renameInv_new (p : Path) : RenameInv (Document.new p) := by
  intro hc
  simp [Document.new] at hc

lemma stateInv_update {s : State} {d' : Document} (h : StateInv s)
    (hd : RenameInv d') : StateInv (s.update_current_document d') := by
  intro x hx
  unfold State.update_current_document at hx
  split at hx
  · rcases mem_replaceFirst hx with rfl | hmem
    · exact hd
    · exact h x hmem
  · exact h x hx

lemma stateInv_begin {s : State} (h : StateInv s) (n : String) :
    StateInv (s.begin_animation_rename n).1 := by
  intro x hx
  simp only [State.begin_animation_rename] at hx
  split at hx
  · exact h x hx
  · split at hx
    · exact h x hx
    · refine (stateInv_update h ?_) x hx
      intro _
      rfl

lemma stateInv_open_one {s : State} (h : StateInv s) (fs : Path → Option Sheet)
    (p : Path) : StateInv (s.open_one fs p).1 := by
  intro x hx
  simp only [State.open_one] at hx
  split at hx
  · exact h x hx
  · split at hx
    · exact h x hx
    · rcases List.mem_append.mp hx with hmem | hmem
      · exact h x hmem
      · rw [List.mem_singleton] at hmem
        subst hmem
        intro hc
        simp [Document.new] at hc

lemma stateInv_open_list (fs : Path → Option Sheet) :
    ∀ (ps : List Path) {s : State}, StateInv s →
      StateInv (State.open_document_list s fs ps).1
  | [], _, h => h
  | p :: ps, s, h => by
    simp only [State.open_document_list]
    split
    · rename_i s1 heq
      have h1 : StateInv s1 := by
        have h2 := stateInv_open_one h fs p
        rw [heq] at h2
        exact h2
      exact stateInv_open_list fs ps h1
    · rename_i s1 e heq
      have h2 := stateInv_open_one h fs p
      rw [heq] at h2
      exact h2

lemma stateInv_process (fs : Path → Option Sheet) (c : Command) {s : State}
    (h : StateInv s) : StateInv (State.process_command fs s c).1 := by
  cases c with
  | NewDocument resp =>
    cases resp with
    | okay p0 =>
      intro x hx
      simp only [State.process_command, State.new_document] at hx
      split at hx
      · rcases mem_replaceFirst hx with rfl | hmem
        · exact renameInv_new _
        · exact h x hmem
      · rcases List.mem_append.mp hx with hmem | hmem
        · exact h x hmem
        · rw [List.mem_singleton] at hmem
          subst hmem
          exact renameInv_new _
    | okayMultiple ps => exact h
    | cancel => exact h
  | OpenDocument resp =>
    cases resp with
    | okay p => exact stateInv_open_list fs [p] h
    | okayMultiple ps => exact stateInv_open_list fs ps h
    | cancel => exact h
  | FocusDocument p =>
    intro x hx
    simp only [State.process_command] at hx
    split at hx <;> exact h x hx
  | CloseCurrentDocument =>
    intro x hx
    simp only [State.process_command, State.close_current_document] at hx
    split at hx
    · exact h x hx
    · split at hx
      · exact h x hx
      · exact h x (List.Sublist.mem hx (List.eraseIdx_sublist _ _))
  | CloseAllDocuments =>
    intro x hx
    simp [State.process_command, State.close_all_documents] at hx
  | SaveCurrentDocument =>
    intro x hx
    simp only [State.process_command, State.save_current_document] at hx
    split at hx <;> exact h x hx
  | SaveCurrentDocumentAs resp =>
    intro x hx
    simp only [State.process_command, State.save_current_document_as] at hx
    split at hx
    · exact h x hx
    · rename_i d hg
      cases resp with
      | okay p0 =>
        refine (stateInv_update h ?_) x hx
        exact h d (mem_of_get_current hg)
      | okayMultiple ps => exact h x hx
      | cancel => exact h x hx
  | SaveAllDocuments => exact h
  | SwitchToContentTab tab =>
    intro x hx
    simp only [State.process_command, State.switch_to_content_tab] at hx
    split at hx
    · exact h x hx
    · rename_i d hg
      refine (stateInv_update h ?_) x hx
      exact h d (mem_of_get_current hg)
  | Import resp =>
    intro x hx
    simp only [State.process_command, State.import] at hx
    split at hx
    · exact h x hx
    · rename_i d hg
      cases resp with
      | okay p0 =>
        refine (stateInv_update h ?_) x hx
        exact h d (mem_of_get_current hg)
      | okayMultiple ps =>
        refine (stateInv_update h ?_) x hx
        exact h d (mem_of_get_current hg)
      | cancel => exact h x hx
  | SelectFrame p =>
    intro x hx
    simp only [State.process_command, State.select_frame] at hx
    split at hx
    · exact h x hx
    · rename_i d hg
      split at hx
      · exact h x hx
      · refine (stateInv_update h ?_) x hx
        exact h d (mem_of_get_current hg)
  | EditFrame p =>
    intro x hx
    simp only [State.process_command, State.edit_frame] at hx
    split at hx
    · exact h x hx
    · rename_i d hg
      split at hx
      · exact h x hx
      · refine (stateInv_update h ?_) x hx
        exact h d (mem_of_get_current hg)
  | CreateAnimation =>
    simp only [State.process_command, State.create_animation]
    split
    · exact h
    · rename_i d hg
      have hd1 : RenameInv { d with sheet := (d.sheet.add_animation).2 } :=
        h d (mem_of_get_current hg)
      exact stateInv_begin (stateInv_update h hd1) _
  | BeginAnimationRename n => exact stateInv_begin h n
  | UpdateAnimationRename n =>
    intro x hx
    simp only [State.process_command, State.update_animation_rename] at hx
    split at hx
    · exact h x hx
    · refine (stateInv_update h ?_) x hx
      intro _
      rfl
  | EndAnimationRename =>
    intro x hx
    simp only [State.process_command, State.end_animation_rename] at hx
    split at hx
    · exact h x hx
    · rename_i d hg
      split at hx
      · split at hx
        · split at hx
          · exact h x hx
          · split at hx
            · exact h x hx
            · refine (stateInv_update h ?_) x hx
              intro hc
              simp at hc
        · refine (stateInv_update h ?_) x hx
          intro hc
          simp at hc
      · exact h x hx
  | ZoomIn =>
    intro x hx
    simp only [State.process_command, State.zoom_in] at hx
    split at hx
    · exact h x hx
    · rename_i d hg
      refine (stateInv_update h ?_) x hx
      exact h d (mem_of_get_current hg)
  | ZoomOut =>
    intro x hx
    simp only [State.process_command, State.zoom_out] at hx
    split at hx
    · exact h x hx
    · rename_i d hg
      refine (stateInv_update h ?_) x hx
      exact h d (mem_of_get_current hg)
  | ResetZoom =>
    intro x hx
    simp only [State.process_command, State.reset_zoom] at hx
    split at hx
    · exact h x hx
    · rename_i d hg
      refine (stateInv_update h ?_) x hx
      exact h d (mem_of_get_current hg)
  | Pan delta =>
    intro x hx
    simp only [State.process_command, State.pan] at hx
    split at hx
    · exact h x hx
    · rename_i d hg
      refine (stateInv_update h ?_) x hx
      exact h d (mem_of_get_current hg)

lemma stateInv_run (fs : Path → Option Sheet) :
    ∀ (cs : List Command) {s : State}, StateInv s → StateInv (State.run fs s cs)
  | [], _, h => h
  | c :: cs, _, h => stateInv_run fs cs (stateInv_process fs c h)

/-- Claim C1 (refuted, code bug): the spec claims no two open documents ever
share a source path, and in particular that `SaveCurrentDocumentAs` preserves
uniqueness. The code's own `add_document` asserts this invariant, but
`save_current_document_as` re-points the current document's source without
checking whether the chosen path is already open: after opening `a.tiger` and
`b.tiger`, focusing `a.tiger` and saving it as `b`, both documents have source
`b.tiger`. -/
theorem c1_save_as_breaks_source_uniqueness :
    (State.run fs0 State.new c1Cmds).documents.map Document.source
      = [pbtiger, pbtiger] ∧
    ¬ sourcesUnique (State.run fs0 State.new c1Cmds) := by decide

/-- Claim C2, counterexample: `UpdateAnimationRename` issued when no rename is
in progress sets only the buffer, producing a reachable document whose rename
target is `none` while its buffer is `some`. -/
theorem c2_counterexample_half_open_rename :
    ∃ d ∈ (State.run fs0 State.new c2Cmds).documents,
      ¬ renamePairConsistent d := by decide

/-- Claim C3 (code bug): at zoom step −2 the derived workbench zoom factor is
`1 / (−2) = −0.5`, not the reduction multiplier `0.5` the spec describes; the
code computes `1.0 / level` without negation. -/
theorem c3_zoom_factor_is_negative_at_step_minus_two :
    (State.run fs0 State.new c3Cmds).get_workbench_zoom_factor
      = Except.ok (-(1 / 2) : Rat) ∧
    (State.run fs0 State.new c3Cmds).get_workbench_zoom_factor
      ≠ Except.ok ((1 / 2) : Rat) := by
  have hd : (State.run fs0 State.new c3Cmds).get_current_document
      = some dZoomedOut := by decide
  have hval : (State.run fs0 State.new c3Cmds).get_workbench_zoom_factor
      = Except.ok (-(1 / 2) : Rat) := by
    unfold State.get_workbench_zoom_factor
    rw [hd]
    show Except.ok (if ((-2 : Int) ≥ 0) then ((-2 : Int) : Rat)
      else 1 / ((-2 : Int) : Rat)) = _
    rw [if_neg (by norm_num : ¬ ((-2 : Int) ≥ 0))]
    congr 1
    norm_num
  refine ⟨hval, ?_⟩
  rw [hval]
  intro hc
  simp only [Except.ok.injEq] at hc
  norm_num at hc

/-- Claim C2 (amended, confirmed): for every reachable document, if the rename
target is set then the rename buffer is set. (The claim's full both-or-none
pairing fails: a stray `UpdateAnimationRename` sets the buffer alone, see
`c2_counterexample_half_open_rename`.) -/
theorem c2_rename_target_implies_buffer :
    ∀ (fs : Path → Option Sheet) (cs : List Command) (d : Document),
      d ∈ (State.run fs State.new cs).documents →
      d.content_rename_animation_target.isSome = true →
      d.content_rename_animation_buffer.isSome = true := by
  intro fs cs d hmem ht
  have h0 : StateInv State.new := by
    intro x hx
    simp [State.new] at hx
  exact stateInv_run fs cs h0 d hmem ht

/-- Witness for C2 on a reachable document with a rename in progress. -/
theorem c2_rename_target_implies_buffer_witness :
    dCreated ∈ (State.run fs0 State.new c2RunCmds).documents ∧
    dCreated.content_rename_animation_buffer.isSome = true :=
  ⟨by decide,
   c2_rename_target_implies_buffer fs0 c2RunCmds dCreated (by decide) (by decide)⟩

lemma zoom_in_of_current {s : State} {d : Document}
    (h : s.get_current_document = some d) :
    s.zoom_in = (s.update_current_document
      { d with workbench_zoom_level := zoomInLevel d.workbench_zoom_level },
     none) := by
  unfold State.zoom_in
  rw [h]

lemma zoom_out_of_current {s : State} {d : Document}
    (h : s.get_current_document = some d) :
    s.zoom_out = (s.update_current_document
      { d with workbench_zoom_level := zoomOutLevel d.workbench_zoom_level },
     none) := by
  unfold State.zoom_out
  rw [h]

lemma zoomInLevel_lattice : ∀ l ∈ zoomLattice, zoomInLevel l ∈ zoomLattice := by
  decide

lemma zoomOutLevel_lattice : ∀ l ∈ zoomLattice, zoomOutLevel l ∈ zoomLattice := by
  decide

lemma lattice_bounds : ∀ l ∈ zoomLattice,
    -8 ≤ l ∧ l ≤ 16 ∧ l ≠ -1 ∧ l ≠ 0 := by decide

lemma zoom_run_lattice (fs : Path → Option Sheet) :
    ∀ (cs : List Command),
      (∀ c ∈ cs, c = Command.ZoomIn ∨ c = Command.ZoomOut) →
      ∀ (s : State) (d : Document), s.get_current_document = some d →
        d.workbench_zoom_level ∈ zoomLattice →
        ∀ d', (State.run fs s cs).get_current_document = some d' →
          d'.workbench_zoom_level ∈ zoomLattice := by
  intro cs
  induction cs with
  | nil =>
    intro hcs s d hg hl d' hg'
    simp only [State.run] at hg'
    rw [hg] at hg'
    injection hg' with h
    subst h
    exact hl
  | cons c cs ih =>
    intro hcs s d hg hl d' hg'
    have hcs' : ∀ x ∈ cs, x = Command.ZoomIn ∨ x = Command.ZoomOut :=
      fun x hx => hcs x (List.mem_cons_of_mem _ hx)
    rcases hcs c (List.mem_cons_self _ _) with rfl | rfl
    · simp only [State.run, State.process_command] at hg'
      rw [zoom_in_of_current hg] at hg'
      have hsrc : ({ d with workbench_zoom_level := zoomInLevel d.workbench_zoom_level } : Document).source = d.source := rfl
      have hg2 := get_current_update hg hsrc
      exact ih hcs' _ _ hg2 (zoomInLevel_lattice _ hl) d' hg'
    · simp only [State.run, State.process_command] at hg'
      rw [zoom_out_of_current hg] at hg'
      have hsrc : ({ d with workbench_zoom_level := zoomOutLevel d.workbench_zoom_level } : Document).source = d.source := rfl
      have hg2 := get_current_update hg hsrc
      exact ih hcs' _ _ hg2 (zoomOutLevel_lattice _ hl) d' hg'

/-- Claim C4 (confirmed): starting from zoom step 1, any sequence of
ZoomIn/ZoomOut commands keeps the current document's zoom step in the lattice
{−8, −4, −2, 1, 2, 4, 8, 16}, hence within [−8, 16] and never −1 or 0. -/
theorem c4_zoom_lattice_invariant :
    ∀ (fs : Path → Option Sheet) (cs : List Command),
      (∀ c ∈ cs, c = Command.ZoomIn ∨ c = Command.ZoomOut) →
      ∀ (s : State) (d : Document), s.get_current_document = some d →
        d.workbench_zoom_level = 1 →
        ∀ d', (State.run fs s cs).get_current_document = some d' →
          d'.workbench_zoom_level ∈ zoomLattice ∧
          -8 ≤ d'.workbench_zoom_level ∧ d'.workbench_zoom_level ≤ 16 ∧
          d'.workbench_zoom_level ≠ -1 ∧ d'.workbench_zoom_level ≠ 0 := by
  intro fs cs hcs s d hg h1 d' hg'
  have hmem : d'.workbench_zoom_level ∈ zoomLattice :=
    zoom_run_lattice fs cs hcs s d hg (by rw [h1]; decide) d' hg'
  exact ⟨hmem, lattice_bounds _ hmem⟩

/-- Witness for C4: one ZoomOut from a fresh document lands on step −2. -/
theorem c4_zoom_lattice_invariant_witness :
    dZoomedOut.workbench_zoom_level ∈ zoomLattice ∧
    -8 ≤ dZoomedOut.workbench_zoom_level ∧
    dZoomedOut.workbench_zoom_level ≤ 16 ∧
    dZoomedOut.workbench_zoom_level ≠ -1 ∧
    dZoomedOut.workbench_zoom_level ≠ 0 :=
  c4_zoom_lattice_invariant fs0 [Command.ZoomOut] (by decide) sOne d0
    (by decide) (by decide) dZoomedOut (by decide)

/-- Claim C7 (confirmed): on every lattice step not at a clamp boundary,
zoom-in and zoom-out invert each other, including across the −2 ↔ 1 jump. -/
theorem c7_zoom_round_trip :
    ∀ l ∈ zoomLattice,
      (l < 16 → zoomOutLevel (zoomInLevel l) = l) ∧
      (-8 < l → zoomInLevel (zoomOutLevel l) = l) := by decide

/-- Witness for C7 at steps 1 and −2 (both sides of the jump). -/
theorem c7_zoom_round_trip_witness :
    zoomOutLevel (zoomInLevel 1) = 1 ∧ zoomInLevel (zoomOutLevel (-2)) = -2 :=
  ⟨(c7_zoom_round_trip 1 (by decide)).1 (by decide),
   (c7_zoom_round_trip (-2) (by decide)).2 (by decide)⟩

/-- Claim C6 (confirmed): ending a rename whose buffer collides with a
different existing animation fails with `AnimationAlreadyExists` and returns
the state completely unchanged (target, buffer and animations untouched, so
the rename remains retryable). -/
theorem c6_end_rename_collision_fails_cleanly :
    ∀ (s : State) (d : Document) (old_name new_name : String),
      s.get_current_document = some d →
      d.content_rename_animation_target = some old_name →
      d.content_rename_animation_buffer = some new_name →
      old_name ≠ new_name →
      d.sheet.has_animation new_name = true →
      s.end_animation_rename = (s, some StateError.AnimationAlreadyExists) := by
  intro s d old_name new_name hg ht hb hne hhas
  unfold State.end_animation_rename
  rw [hg]
  simp only [ht, hb]
  rw [if_pos hne, if_pos hhas]

/-- Witness for C6: renaming animation `a` to the already-used name `b`. -/
theorem c6_end_rename_collision_fails_cleanly_witness :
    sAB.end_animation_rename = (sAB, some StateError.AnimationAlreadyExists) :=
  c6_end_rename_collision_fails_cleanly sAB dAB "a" "b" (by decide) (by decide)
    (by decide) (by decide) (by decide)

/-- Claim C8 (confirmed): `SelectFrame`/`EditFrame` fail with `NoDocumentOpen`
when no document is current and with `FrameNotInDocument` when the frame is
missing from the current sheet, in both cases leaving the state (hence
selection, workbench item and offset) unchanged. -/
theorem c8_select_edit_frame_failure :
    ∀ (s : State) (p : Path),
      (s.get_current_document = none →
        s.select_frame p = (s, some StateError.NoDocumentOpen) ∧
        s.edit_frame p = (s, some StateError.NoDocumentOpen)) ∧
      (∀ d, s.get_current_document = some d → d.sheet.has_frame p = false →
        s.select_frame p = (s, some StateError.FrameNotInDocument) ∧
        s.edit_frame p = (s, some StateError.FrameNotInDocument)) := by
  intro s p
  constructor
  · intro hg
    constructor
    · unfold State.select_frame
      rw [hg]
    · unfold State.edit_frame
      rw [hg]
  · intro d hg hframe
    constructor
    · unfold State.select_frame
      rw [hg]
      simp [hframe]
    · unfold State.edit_frame
      rw [hg]
      simp [hframe]

/-- Witness for C8: a missing frame path and an empty state. -/
theorem c8_select_edit_frame_failure_witness :
    (sOne.select_frame pframe = (sOne, some StateError.FrameNotInDocument) ∧
     sOne.edit_frame pframe = (sOne, some StateError.FrameNotInDocument)) ∧
    (State.new.select_frame pframe = (State.new, some StateError.NoDocumentOpen) ∧
     State.new.edit_frame pframe = (State.new, some StateError.NoDocumentOpen)) :=
  ⟨(c8_select_edit_frame_failure sOne pframe).2 d0 (by decide) (by decide),
   (c8_select_edit_frame_failure State.new pframe).1 (by decide)⟩

/-- Claim C10 (confirmed): whenever `get_current_document` returns a document,
the index search in `close_current_document` succeeds, so the
`DocumentNotFound` branch is unreachable and the operation can only fail with
`NoDocumentOpen`. -/
theorem c10_close_only_fails_with_no_document :
    ∀ (s : State),
      (∀ d, s.get_current_document = some d →
        (s.documents.findIdx? (fun x => decide (x.source = d.source))).isSome
          = true) ∧
      (∀ e, (s.close_current_document).2 = some e →
        e = StateError.NoDocumentOpen) := by
  intro s
  have hfind : ∀ d, s.get_current_document = some d →
      (s.documents.findIdx? (fun x => decide (x.source = d.source))).isSome
        = true := by
    intro d hg
    rw [List.findIdx?_isSome, List.any_eq_true]
    exact ⟨d, mem_of_get_current hg, by simp⟩
  refine ⟨hfind, ?_⟩
  intro e he
  unfold State.close_current_document at he
  split at he
  · injection he with h
    exact h.symm
  · rename_i d hg
    split at he
    · rename_i hidx
      have hs := hfind d hg
      rw [hidx] at hs
      simp at hs
    · simp at he

/-- Witness for C10: the index search succeeds on a one-document state, and
the empty state's close fails with exactly `NoDocumentOpen`. -/
theorem c10_close_only_fails_with_no_document_witness :
    (sOne.documents.findIdx? (fun x => decide (x.source = d0.source))).isSome
      = true ∧
    StateError.NoDocumentOpen = StateError.NoDocumentOpen :=
  ⟨(c10_close_only_fails_with_no_document sOne).1 d0 (by decide),
   (c10_close_only_fails_with_no_document State.new).2 StateError.NoDocumentOpen
     (by decide)⟩

/-- Claim C5 (confirmed): closing the current document at (first-match) index
`i` removes it, succeeds, and focuses the document now at
`min i (new_length − 1)` (`none` when the list becomes empty, in particular
when the closed document was the only one); with no current document it fails
with `NoDocumentOpen` and changes nothing. -/
theorem c5_close_current_document_contract :
    ∀ (s : State),
      (s.get_current_document = none →
        s.close_current_document = (s, some StateError.NoDocumentOpen)) ∧
      (∀ d i, s.get_current_document = some d →
        s.documents.findIdx? (fun x => decide (x.source = d.source)) = some i →
        (s.close_current_document).2 = none ∧
        (s.close_current_document).1.documents
          = s.documents.take i ++ s.documents.drop (i + 1) ∧
        ((s.close_current_document).1.documents = [] →
          (s.close_current_document).1.current_document = none) ∧
        ((s.close_current_document).1.documents ≠ [] →
          (s.close_current_document).1.current_document
            = (((s.close_current_document).1.documents)[min i (((s.close_current_document).1.documents).length - 1)]?).map Document.source) ∧
        (s.documents.length = 1 →
          (s.close_current_document).1
            = { documents := [], current_document := none })) := by
  intro s
  constructor
  · intro hg
    unfold State.close_current_document
    rw [hg]
  · intro d i hg hidx
    have hclose : s.close_current_document
        = ({ s with
              documents := s.documents.eraseIdx i
              current_document := if (s.documents.eraseIdx i).isEmpty then none else ((s.documents.eraseIdx i)[min i ((s.documents.eraseIdx i).length - 1)]?).map Document.source },
           none) := by
      unfold State.close_current_document
      rw [hg]
      dsimp only
      rw [hidx]
    rw [hclose]
    refine ⟨rfl, List.eraseIdx_eq_take_drop_succ _ _, ?_, ?_, ?_⟩
    · intro he
      show (if (s.documents.eraseIdx i).isEmpty then none else ((s.documents.eraseIdx i)[min i ((s.documents.eraseIdx i).length - 1)]?).map Document.source) = none
      have he' : s.documents.eraseIdx i = [] := he
      rw [he']
      rfl
    · intro hne
      have hne' : s.documents.eraseIdx i ≠ [] := hne
      show (if (s.documents.eraseIdx i).isEmpty then none else ((s.documents.eraseIdx i)[min i ((s.documents.eraseIdx i).length - 1)]?).map Document.source) = ((s.documents.eraseIdx i)[min i ((s.documents.eraseIdx i).length - 1)]?).map Document.source
      rw [if_neg (by simp [hne'])]
    · intro hlen
      have hi : i < s.documents.length :=
        (List.findIdx?_eq_some_iff_findIdx_eq.mp hidx).1
      have hi0 : i = 0 := by omega
      have he : s.documents.eraseIdx i = [] :=
        List.eraseIdx_eq_nil.mpr (Or.inr ⟨hlen, hi0⟩)
      show ({ s with
              documents := s.documents.eraseIdx i
              current_document := if (s.documents.eraseIdx i).isEmpty then none else ((s.documents.eraseIdx i)[min i ((s.documents.eraseIdx i).length - 1)]?).map Document.source } : State)
          = { documents := [], current_document := none }
      rw [he]
      rfl

/-- Witness for C5: closing the first of two documents. -/
theorem c5_close_current_document_contract_witness :
    (sTwo.close_current_document).2 = none ∧
    (sTwo.close_current_document).1.documents
      = sTwo.documents.take 0 ++ sTwo.documents.drop (0 + 1) ∧
    ((sTwo.close_current_document).1.documents = [] →
      (sTwo.close_current_document).1.current_document = none) ∧
    ((sTwo.close_current_document).1.documents ≠ [] →
      (sTwo.close_current_document).1.current_document
        = (((sTwo.close_current_document).1.documents)[min 0 (((sTwo.close_current_document).1.documents).length - 1)]?).map Document.source) ∧
    (sTwo.documents.length = 1 →
      (sTwo.close_current_document).1
        = { documents := [], current_document := none }) :=
  (c5_close_current_document_contract sTwo).2 d0 0 (by decide) (by decide)

lemma begin_of_current {s : State} {d : Document} {n : String}
    (hg : s.get_current_document = some d)
    (hhas : d.sheet.has_animation n = true) :
    s.begin_animation_rename n
      = (s.update_current_document { d with content_rename_animation_target := some n, content_rename_animation_buffer := some n },
         none) := by
  unfold State.begin_animation_rename
  rw [hg]
  simp only [Sheet.get_animation, hhas, if_true]

lemma update_rename_of_current {s : State} {d : Document} {n : String}
    (hg : s.get_current_document = some d) :
    s.update_animation_rename n
      = (s.update_current_document { d with content_rename_animation_buffer := some n },
         none) := by
  unfold State.update_animation_rename
  rw [hg]

lemma fold_updates :
    ∀ (us : List String) (s : State) (d : Document) (b0 : String),
      s.get_current_document = some d →
      d.content_rename_animation_buffer = some b0 →
      (us.foldl (fun st u => (st.update_animation_rename u).1) s).get_current_document
        = some { d with content_rename_animation_buffer := some (us.getLastD b0) } := by
  intro us
  induction us with
  | nil =>
    intro s d b0 hg hb
    show s.get_current_document
      = some { d with content_rename_animation_buffer := some (List.getLastD [] b0) }
    rw [hg]
    show (some d : Option Document)
      = some { d with content_rename_animation_buffer := some b0 }
    rw [← hb]
  | cons u us ih =>
    intro s d b0 hg hb
    simp only [List.foldl]
    rw [update_rename_of_current hg]
    have hg2 : (s.update_current_document { d with content_rename_animation_buffer := some u }).get_current_document
        = some { d with content_rename_animation_buffer := some u } :=
      get_current_update hg rfl
    have hrec := ih _ _ u hg2 rfl
    rw [List.getLastD_cons]
    exact hrec

lemma end_equal_of_current {s : State} {d : Document} {n : String}
    (hg : s.get_current_document = some d)
    (ht : d.content_rename_animation_target = some n)
    (hb : d.content_rename_animation_buffer = some n) :
    s.end_animation_rename
      = (s.update_current_document { d with content_rename_animation_target := none, content_rename_animation_buffer := none },
         none) := by
  unfold State.end_animation_rename
  rw [hg]
  simp only [ht, hb]
  rw [if_neg (by simp : ¬ (n ≠ n))]

/-- Claim C9 (confirmed): beginning a rename of an existing animation, applying
any buffer updates whose final buffer equals the original name, and ending the
rename succeeds, performs no rename on the sheet (the current document keeps
`d`'s sheet unchanged) and clears both rename fields. -/
theorem c9_end_rename_equal_name_is_noop :
    ∀ (s : State) (d : Document) (name : String) (updates : List String),
      s.get_current_document = some d →
      d.sheet.has_animation name = true →
      updates.getLastD name = name →
      ((updates.foldl (fun st u => (st.update_animation_rename u).1)
          (s.begin_animation_rename name).1).end_animation_rename).2 = none ∧
      ((updates.foldl (fun st u => (st.update_animation_rename u).1)
          (s.begin_animation_rename name).1).end_animation_rename).1.get_current_document
        = some { d with content_rename_animation_target := none, content_rename_animation_buffer := none } := by
  intro s d name updates hg hhas hlast
  rw [begin_of_current hg hhas]
  have hg1 : (s.update_current_document { d with content_rename_animation_target := some name, content_rename_animation_buffer := some name }).get_current_document
      = some { d with content_rename_animation_target := some name, content_rename_animation_buffer := some name } :=
    get_current_update hg rfl
  have hfold := fold_updates updates _ _ name hg1 rfl
  rw [hlast] at hfold
  have hend := end_equal_of_current hfold rfl rfl
  rw [hend]
  exact ⟨rfl, get_current_update hfold rfl⟩

/-- Witness for C9: renaming `wolf` via buffers `w` then back to `wolf`. -/
theorem c9_end_rename_equal_name_is_noop_witness :
    ((["w", "wolf"].foldl (fun st u => (st.update_animation_rename u).1)
        (sWolf.begin_animation_rename "wolf").1).end_animation_rename).2 = none ∧
    ((["w", "wolf"].foldl (fun st u => (st.update_animation_rename u).1)
        (sWolf.begin_animation_rename "wolf").1).end_animation_rename).1.get_current_document
      = some { dWolf with content_rename_animation_target := none, content_rename_animation_buffer := none } :=
  c9_end_rename_equal_name_is_noop sWolf dWolf "wolf" ["w", "wolf"]
    (by decide) (by decide) (by decide)

end Tiger
